import Mathlib

/-!
# Verification of the sql-chain core (`sqlchain/chain.go`)

A shallow embedding of the chain engine of `src/sqlchain/chain.go`: the chain
state, the persistent bucket store, the in-memory block and query indices, and
the operations `NewChain`, `LoadChain`, `PushBlock`, `PushResponedQuery`,
`PushAckedQuery`, `CheckAndPushNewBlock`, `VerifyAndPushResponsedQuery`,
`VerifyAndPushAckedQuery`, `ProduceBlock`, `RunCurrentTurn`, `Stop`,
`FetchBlock`, and the height/key codec `HeightToKey` / `KeyToHeight`.

Conventions of the embedding:
* 32-byte hashes are modelled as natural numbers with decidable equality;
  lexicographic byte order on equal-length big-endian hash strings coincides
  with numeric order, which is what the store ordering below relies on.
* `time.Time` / `time.Duration` values are modelled as integers (nanoseconds).
* Go heights are `int32`; except for the byte codec (`HeightToKey`,
  `KeyToHeight`), where the 32-bit representation is the point, heights are
  modelled as unbounded integers.
* External collaborators (bolt, crypto, codecs) are modelled by their
  contracts: signature checks become recorded validity flags, binary codecs
  store the structured value itself, and store/commit failures are injected
  through an explicit `TxFail` oracle so that every failure path of a
  `db.Update` transaction can be exercised.
* Fallible operations return `Option ChainErr × σ` (the Go `(err, receiver)`
  pair) or `Except ChainErr α`.
-/

namespace SQLChain

/-- A 32-byte identifier (block hash, header hash, node id), as a number. -/
abbrev Hash := Nat

/-! ## Association-list helpers (bolt buckets and in-memory maps) -/

/-- Lookup in an association list. -/
def alookup {κ α : Type} [DecidableEq κ] : List (κ × α) → κ → Option α
  | [], _ => none
  | (k', v) :: rest, k => if k = k' then some v else alookup rest k

/-- Insert-or-replace in an association list (no reordering). -/
def aset {κ α : Type} [DecidableEq κ] : List (κ × α) → κ → α → List (κ × α)
  | [], k, v => [(k, v)]
  | (k', v') :: rest, k, v =>
    if k = k' then (k, v) :: rest else (k', v') :: aset rest k v

/-- Insert-or-replace in an association list kept sorted by `lt` on keys
(models a bolt bucket, whose cursor iterates keys in byte order). -/
def sinsert {κ α : Type} [DecidableEq κ] (lt : κ → κ → Bool) :
    List (κ × α) → κ → α → List (κ × α)
  | [], k, v => [(k, v)]
  | (k', v') :: rest, k, v =>
    if k = k' then (k, v) :: rest
    else if lt k k' then (k, v) :: (k', v') :: rest
    else (k', v') :: sinsert lt rest k v

/-! ## Error kinds (spec §7) -/

/-- Error kinds returned by the chain engine. `nilDereference` and
`closeOfClosed` stand for the corresponding Go runtime faults. -/
inductive ChainErr where
  | parentNotFound
  | invalidBlock
  | blockExists
  | blockTimestampOutOfPeriod
  | multipleResponses
  | multipleAcks
  | multipleAcksInBlocks
  | ackNotFound
  | responseNotFound
  | queryExpired
  | verifyFailed
  | storeFailure
  | keyFetchFailure
  | nilDereference
  | closeOfClosed
deriving DecidableEq, Repr

/-- Failure injection for one `db.Update` transaction: `ok` — everything
succeeds; `failPut1` / `failPut2` — the first / second store write inside the
transaction body fails (the body returns the error and the transaction rolls
back); `failCommit` — the body succeeds but the final commit fails (staged
store writes are discarded). -/
inductive TxFail where
  | ok
  | failPut1
  | failPut2
  | failCommit
deriving DecidableEq, Repr

/-! ## Data model: query headers and blocks -/

/-- A signed request header: timestamp and self-hash (external struct,
modelled by the fields `chain.go` reads). -/
structure Request where
  timestamp : Int
  headerHash : Hash
deriving DecidableEq, Repr

/-- A signed response header wrapping a request. `sigValid` records the
outcome of the external `Verify` signature check. -/
structure Response where
  request : Request
  headerHash : Hash
  timestamp : Int
  sigValid : Bool
deriving DecidableEq, Repr

/-- A signed ack header wrapping a signed response header. -/
structure Ack where
  response : Response
  headerHash : Hash
  timestamp : Int
  sigValid : Bool
deriving DecidableEq, Repr

/-- A signed block: header fields plus the list of acknowledged-query hashes.
`sigValid` / `genesisValid` record the outcomes of the external `Verify` /
`VerifyAsGenesis` checks. -/
structure Block where
  version : Nat
  producer : Nat
  genesisHash : Hash
  parentHash : Hash
  blockHash : Hash
  timestamp : Int
  queries : List Hash
  sigValid : Bool
  genesisValid : Bool
deriving DecidableEq, Repr

/-! ## Height/key codec (`chain.go` lines 44-54) -/

/-- `HeightToKey` converts an `int32` height to a 4-byte big-endian key:
`binary.BigEndian.PutUint32(key, uint32(h))`. The `uint32(h)` conversion is
the two's-complement reinterpretation `h mod 2^32`. -/
def HeightToKey (h : Int) : List Nat :=
  let u := (h % 4294967296).toNat
  [u / 16777216 % 256, u / 65536 % 256, u / 256 % 256, u % 256]

/-- Big-endian decoding of a 4-byte key (`binary.BigEndian.Uint32`; the Go
function requires at least 4 bytes, so only that case is modelled). -/
def beUint32 : List Nat → Nat
  | b0 :: b1 :: b2 :: b3 :: _ => b0 * 16777216 + b1 * 65536 + b2 * 256 + b3
  | _ => 0

/-- `KeyToHeight` converts a key back to an `int32` height:
`int32(binary.BigEndian.Uint32(k))`, i.e. the signed reinterpretation of the
decoded 32-bit word. -/
def KeyToHeight (k : List Nat) : Int :=
  let u := beUint32 k
  if u < 2147483648 then (u : Int) else (u : Int) - 4294967296

/-! ## Block nodes and the block index -/

/-- In-memory block node: the block and the parent link (`root` is the
genesis node with a nil parent). The cached `hash` and `height` fields of the
source node are recovered by the functions below. -/
inductive BlockNode where
  | root (block : Block)
  | child (block : Block) (parent : BlockNode)
deriving DecidableEq, Repr

/-- The node's block. -/
def BlockNode.block : BlockNode → Block
  | .root b => b
  | .child b _ => b

/-- Cached node hash: the block's self-hash. -/
def BlockNode.hash (n : BlockNode) : Hash := n.block.blockHash

/-- Cached node height: `parent.height + 1`, genesis `0` (spec §4.2). -/
def BlockNode.height : BlockNode → Int
  | .root _ => 0
  | .child _ p => p.height + 1

/-- `newBlockNode(block, parent)`: parent pointer, hash and height as in spec
§4.2 (the block node source file is not among the provided sources; this
construction is also what `LoadChain`'s `initBlockNode` performs). -/
def newBlockNode (b : Block) : Option BlockNode → BlockNode
  | none => .root b
  | some p => .child b p

/-- Modelled from the spec: `ancestor(h)` walks `parent` pointers until
`node.height == h`, returning null if `h` is above the node's height or below
genesis (§4.2; the block node source file is not among the provided
sources). -/
def BlockNode.ancestor : BlockNode → Int → Option BlockNode
  | .root b, h => if h = 0 then some (.root b) else none
  | .child b p, h =>
    if h = (BlockNode.child b p).height then some (.child b p)
    else if h > (BlockNode.child b p).height then none
    else p.ancestor h

/-- Modelled from the spec: the in-memory block index is a mapping
`BlockHash → BlockNode` (§3, §4.2; the block index source file is not among
the provided sources). -/
abbrev BlockIndex := List (Hash × BlockNode)

/-- `blockIndex.AddBlock(node)`: insert keyed by the node hash. -/
def BlockIndex.AddBlock (bi : BlockIndex) (n : BlockNode) : BlockIndex :=
  aset bi n.hash n

/-- `blockIndex.LookupNode(hash)`. -/
def BlockIndex.LookupNode (bi : BlockIndex) (h : Hash) : Option BlockNode :=
  alookup bi h

/-- `blockIndex.HasBlock(hash)`. -/
def BlockIndex.HasBlock (bi : BlockIndex) (h : Hash) : Bool :=
  (alookup bi h).isSome

/-- Modelled from the spec: the block-index bucket key is big-endian(height)
(4 bytes) concatenated with the block hash (§4.4); since all keys have equal
length, byte order is lexicographic order on the pair
(unsigned 32-bit height, hash). -/
def nodeIndexKey (n : BlockNode) : Nat × Nat :=
  ((n.height % 4294967296).toNat, n.hash)

/-- Byte order on block-index keys. -/
def blockKeyLt (a b : Nat × Nat) : Bool :=
  a.1 < b.1 || (a.1 = b.1 && a.2 < b.2)

/-- Byte order on height-bucket keys (4-byte big-endian strings). -/
def heightKeyLt (a b : List Nat) : Bool :=
  beUint32 a < beUint32 b

/-! ## Query index

Modelled from the spec (§3, §4.3): the query index source file is not among
the provided sources; `chain.go` calls `NewQueryIndex`, `AddResponse`,
`AddAck`, `SetSignedBlock`, `CheckAckFromBlock` and `GetAck` on it. -/

/-- A response record: the response header and the hash of the ack attached
to it, if any (§3: `ResponseRecord{header, ack?}`). -/
structure ResponseRecord where
  header : Response
  ackHash : Option Hash
deriving DecidableEq, Repr

/-- An ack record: the ack header (none while only a placeholder created by
`SetSignedBlock`, pending arrival) and the hashes of blocks that include
it. -/
structure AckRecord where
  ack : Option Ack
  blocks : List Hash
deriving DecidableEq, Repr

/-- Per-height tables of the query index. -/
structure HeightIndex where
  responses : List (Hash × ResponseRecord)
  acks : List (Hash × AckRecord)
  signedBlocks : List (Hash × Block)
deriving DecidableEq, Repr

/-- The empty per-height table. -/
def emptyHI : HeightIndex := ⟨[], [], []⟩

/-- Modelled from the spec: the query index maps heights to per-height
tables (§3). -/
abbrev QueryIndex := List (Int × HeightIndex)

/-- The per-height table at `h` (empty if the height is unknown). -/
def hiAt (qi : QueryIndex) (h : Int) : HeightIndex :=
  (alookup qi h).getD emptyHI

/-- Modelled from the spec: `add_response(h, resp)` inserts into
`responses[h]` keyed by `resp.HeaderHash`; idempotent for identical
duplicates; fails with `MultipleResponses` if a different response exists for
the same hash (§4.3). -/
def QueryIndex.AddResponse (qi : QueryIndex) (h : Int) (r : Response) :
    Except ChainErr QueryIndex :=
  let hi := hiAt qi h
  match alookup hi.responses r.headerHash with
  | none =>
      .ok (aset qi h { hi with responses := aset hi.responses r.headerHash ⟨r, none⟩ })
  | some rr =>
      if rr.header = r then .ok qi else .error .multipleResponses

/-- Modelled from the spec: `add_ack(h, ack)` looks up the referenced
response at height `h`; if absent, inserts it; if the response already has a
different ack, fails with `MultipleAcks`; otherwise attaches the ack and
records it in `acks[h]` (§4.3). A pre-existing placeholder ack record keeps
its block list. -/
def QueryIndex.AddAck (qi : QueryIndex) (h : Int) (a : Ack) :
    Except ChainErr QueryIndex :=
  let hi := hiAt qi h
  let rh := a.response.headerHash
  let ar := (alookup hi.acks a.headerHash).getD ⟨none, []⟩
  match alookup hi.responses rh with
  | none =>
      .ok (aset qi h { hi with
        responses := aset hi.responses rh ⟨a.response, some a.headerHash⟩,
        acks := aset hi.acks a.headerHash ⟨some a, ar.blocks⟩ })
  | some rr =>
      match rr.ackHash with
      | some ah =>
          if ah = a.headerHash then
            .ok (aset qi h { hi with
              acks := aset hi.acks a.headerHash ⟨some a, ar.blocks⟩ })
          else .error .multipleAcks
      | none =>
          .ok (aset qi h { hi with
            responses := aset hi.responses rh ⟨rr.header, some a.headerHash⟩,
            acks := aset hi.acks a.headerHash ⟨some a, ar.blocks⟩ })

/-- Modelled from the spec: `set_signed_block(h, block)` appends the block
hash to the `blocks` set of every ack named in `block.Queries` (creating a
placeholder record if missing) and records the signed block (§4.3). -/
def QueryIndex.SetSignedBlock (qi : QueryIndex) (h : Int) (b : Block) :
    QueryIndex :=
  let hi := hiAt qi h
  let acks := b.queries.foldl
    (fun acc q =>
      let ar := (alookup acc q).getD ⟨none, []⟩
      aset acc q ⟨ar.ack, ar.blocks ++ [b.blockHash]⟩)
    hi.acks
  aset qi h { hi with acks := acks,
                      signedBlocks := aset hi.signedBlocks b.blockHash b }

/-- Modelled from the spec: `check_ack_from_block(h, block_hash, ack_hash)`:
`ok` iff the ack is present; `MultipleAcksInBlocks` if its block set already
names another block; `(false, nil)` for an unknown ack (§4.3). -/
def QueryIndex.CheckAckFromBlock (qi : QueryIndex) (h : Int) (bh : Hash)
    (q : Hash) : Bool × Option ChainErr :=
  match alookup (hiAt qi h).acks q with
  | none => (false, none)
  | some ar =>
      if ar.blocks.any (fun x => x ≠ bh) then (ar.ack.isSome, some .multipleAcksInBlocks)
      else (ar.ack.isSome, none)

/-- Modelled from the spec: `get_ack(h, ack_hash)` returns the ack or
`AckNotFound` (§4.3). -/
def QueryIndex.GetAck (qi : QueryIndex) (h : Int) (ah : Hash) :
    Except ChainErr Ack :=
  match alookup (hiAt qi h).acks ah with
  | some ⟨some a, _⟩ => .ok a
  | _ => .error .ackNotFound

/-! ## Persistent store (spec §4.4, §6)

One root `meta` bucket holding the `state` key, the `blocks` bucket and the
per-height `heights` buckets. Encoded values are modelled by the structured
values themselves (the external binary codecs are assumed to round-trip);
the `state` key stores exactly the fields `State.MarshalBinary` writes
(`Head`, `Height` — `chain.go` lines 129-149, the `node` pointer is not
serialized). Buckets keep their entries sorted in byte order of keys, the
order a bolt cursor iterates in. -/

/-- The three per-height query sub-buckets (the `requests` bucket is created
but never written by `chain.go`, so it is omitted). -/
structure HeightBuckets where
  responses : List (Hash × Response)
  acks : List (Hash × Ack)
deriving DecidableEq, Repr

/-- The persistent store. -/
structure Store where
  stateKey : Option (Hash × Int)
  blocks : List ((Nat × Nat) × Block)
  heights : List (List Nat × HeightBuckets)
deriving DecidableEq, Repr

/-- A freshly created store (`NewChain` creates the empty buckets). -/
def emptyStore : Store := ⟨none, [], []⟩

/-- Store effect of the response `Put` under `heights/{key}/responses`
(`ensureHeight` creates the height bucket if missing). -/
def storePutResp (s : Store) (h : Int) (r : Response) : Store :=
  let k := HeightToKey h
  let hb := (alookup s.heights k).getD ⟨[], []⟩
  let hb2 := { hb with responses := aset hb.responses r.headerHash r }
  { s with heights := sinsert heightKeyLt s.heights k hb2 }

/-- Store effect of the ack `Put` under `heights/{key}/acks`. -/
def storePutAck (s : Store) (h : Int) (a : Ack) : Store :=
  let k := HeightToKey h
  let hb := (alookup s.heights k).getD ⟨[], []⟩
  let hb2 := { hb with acks := aset hb.acks a.headerHash a }
  { s with heights := sinsert heightKeyLt s.heights k hb2 }

/-! ## Config, runtime and chain state -/

/-- Recognized configuration (spec §6); `DataDir` is subsumed by passing the
`Store` value explicitly. -/
structure Config where
  genesis : Block
  period : Int
  timeResolution : Int
  queryTTL : Int
  serverID : Nat
deriving DecidableEq, Repr

/-- Modelled from the spec: `height_from_time(t) = floor((t − ChainInitTime)
/ Period)` (§4.1), with `ChainInitTime` the genesis timestamp;
`Config.GetHeightFromTime` itself is not among the provided sources. -/
def Config.GetHeightFromTime (cfg : Config) (t : Int) : Int :=
  (t - cfg.genesis.timestamp).fdiv cfg.period

/-- Chain runtime state (`chain.go` lines 63-86). `pendingBlock` holds the
value behind the source's pointer field; `stopClosed` is the state of the
`stopCh` channel (`true` once closed). -/
structure Runtime where
  offset : Int
  period : Int
  timeResolution : Int
  chainInitTime : Int
  nextTurn : Int
  pendingBlock : Block
  stopClosed : Bool
deriving DecidableEq, Repr

/-- `Runtime.SetNextTurn` (`chain.go` lines 102-107). -/
def Runtime.SetNextTurn (r : Runtime) : Runtime :=
  { r with nextTurn := r.nextTurn + 1 }

/-- `Runtime.Stop` closes `stopCh` (`chain.go` lines 109-112). Closing an
already-closed Go channel faults, which `closeOfClosed` records. -/
def Runtime.Stop (r : Runtime) : Option ChainErr × Runtime :=
  if r.stopClosed then (some .closeOfClosed, r)
  else (none, { r with stopClosed := true })

/-- Snapshot of the current best chain (`chain.go` lines 56-61). -/
structure State where
  node : Option BlockNode
  head : Hash
  height : Int
deriving DecidableEq, Repr

/-- The sql-chain (`chain.go` lines 151-162). -/
structure Chain where
  cfg : Config
  store : Store
  bi : BlockIndex
  qi : QueryIndex
  rt : Runtime
  state : State
  isMyTurn : Bool
deriving DecidableEq, Repr

/-! ## Chain operations -/

/-- `Chain.PushBlock` (`chain.go` lines 381-418). The `db.Update` body puts
the new state under the `state` key and the encoded block under the block
index key, then — still inside the body, before the commit — assigns
`c.state`, `c.bi.AddBlock(node)` and `c.qi.SetSignedBlock(h, b)`. A body
put failure rolls the transaction back before any memory write; a commit
failure discards the staged store writes but the memory writes stand. -/
def Chain.PushBlock (c : Chain) (b : Block) (f : TxFail) :
    Option ChainErr × Chain :=
  let h := c.cfg.GetHeightFromTime b.timestamp
  let node := newBlockNode b c.state.node
  let st : State := ⟨some node, node.hash, node.height⟩
  match f with
  | .failPut1 => (some .storeFailure, c)
  | .failPut2 => (some .storeFailure, c)
  | .failCommit =>
      (some .storeFailure,
        { c with state := st, bi := c.bi.AddBlock node,
                 qi := c.qi.SetSignedBlock h b })
  | .ok =>
      let s2 := { c.store with
        stateKey := some (st.head, st.height),
        blocks := sinsert blockKeyLt c.store.blocks (nodeIndexKey node) b }
      (none,
        { c with store := s2, state := st, bi := c.bi.AddBlock node,
                 qi := c.qi.SetSignedBlock h b })

/-- `NewChain` (`chain.go` lines 164-242): verify the genesis, create the
store buckets, build the initial runtime/state and push the genesis block.
The initial head is the genesis block's `GenesisHash` field and the initial
height is `-1`; `NextTurn` starts at 1. -/
def NewChain (cfg : Config) : Except ChainErr Chain :=
  if ¬ cfg.genesis.genesisValid then .error .verifyFailed
  else
    let pending : Block :=
      { version := 0x01000000, producer := cfg.serverID,
        genesisHash := cfg.genesis.blockHash,
        parentHash := cfg.genesis.blockHash,
        blockHash := 0, timestamp := 0, queries := [],
        sigValid := false, genesisValid := false }
    let c : Chain :=
      { cfg := cfg, store := emptyStore, bi := [], qi := [],
        rt := { offset := 0, period := cfg.period,
                timeResolution := cfg.timeResolution,
                chainInitTime := cfg.genesis.timestamp, nextTurn := 1,
                pendingBlock := pending, stopClosed := false },
        state := { node := none, head := cfg.genesis.genesisHash, height := -1 },
        isMyTurn := false }
    match c.PushBlock cfg.genesis .ok with
    | (some e, _) => .error e
    | (none, c2) => .ok c2

/-- Append an ack hash to the pending block's `Queries` when it is this
node's turn (`chain.go` lines 501-503). -/
def pendAppend (c : Chain) (a : Ack) : Chain :=
  if c.isMyTurn then
    let pb := c.rt.pendingBlock
    { c with rt := { c.rt with
        pendingBlock := { pb with queries := pb.queries ++ [a.headerHash] } } }
  else c

/-- `Chain.PushResponedQuery` (`chain.go` lines 445-470): height from the
request timestamp; the body ensures the height bucket (`failPut1`), puts the
encoded response (`failPut2`) and then calls `qi.AddResponse` — a memory
write inside the transaction body, not affected by a later rollback. -/
def Chain.PushResponedQuery (c : Chain) (r : Response) (f : TxFail) :
    Option ChainErr × Chain :=
  let h := c.cfg.GetHeightFromTime r.request.timestamp
  match f with
  | .failPut1 => (some .storeFailure, c)
  | .failPut2 => (some .storeFailure, c)
  | .failCommit =>
      match c.qi.AddResponse h r with
      | .error e => (some e, c)
      | .ok qi2 => (some .storeFailure, { c with qi := qi2 })
  | .ok =>
      match c.qi.AddResponse h r with
      | .error e => (some e, c)
      | .ok qi2 => (none, { c with qi := qi2, store := storePutResp c.store h r })

/-- `Chain.PushAckedQuery` (`chain.go` lines 472-507): height from the
wrapped response's own timestamp; after the store put the body calls
`qi.AddAck` and, when it is this node's turn, appends the ack hash to the
pending block — both memory writes inside the transaction body. -/
def Chain.PushAckedQuery (c : Chain) (a : Ack) (f : TxFail) :
    Option ChainErr × Chain :=
  let h := c.cfg.GetHeightFromTime a.response.timestamp
  match f with
  | .failPut1 => (some .storeFailure, c)
  | .failPut2 => (some .storeFailure, c)
  | .failCommit =>
      match c.qi.AddAck h a with
      | .error e => (some e, c)
      | .ok qi2 => (some .storeFailure, pendAppend { c with qi := qi2 } a)
  | .ok =>
      match c.qi.AddAck h a with
      | .error e => (some e, c)
      | .ok qi2 =>
          let c2 := pendAppend { c with qi := qi2 } a
          (none, { c2 with store := storePutAck c2.store h a })

/-- The query check loop of `CheckAndPushNewBlock` (`chain.go` lines
531-542): propagate the first error from `CheckAckFromBlock`; an `ok = false`
result is tolerated (the fetch is an unimplemented TODO). -/
def checkAcks (qi : QueryIndex) (h : Int) (bh : Hash) : List Hash → Option ChainErr
  | [] => none
  | q :: rest =>
    match (qi.CheckAckFromBlock h bh q).2 with
    | some e => some e
    | none => checkAcks qi h bh rest

/-- `Chain.CheckAndPushNewBlock` (`chain.go` lines 509-550). -/
def Chain.CheckAndPushNewBlock (c : Chain) (b : Block) (f : TxFail) :
    Option ChainErr × Chain :=
  if b.parentHash ≠ c.state.head then (some .invalidBlock, c)
  else if c.bi.HasBlock b.blockHash then (some .blockExists, c)
  else
    let h := c.cfg.GetHeightFromTime b.timestamp
    if h ≠ c.state.height + 1 then (some .blockTimestampOutOfPeriod, c)
    else
      match checkAcks c.qi h b.blockHash b.queries with
      | some e => (some e, c)
      | none =>
          if ¬ b.sigValid then (some .verifyFailed, c)
          else c.PushBlock b f

/-- `Chain.queryTimeIsExpired` (`chain.go` lines 552-567):
`GetHeightFromTime(t) < NextTurn - QueryTTL`. -/
def Chain.queryTimeIsExpired (c : Chain) (t : Int) : Bool :=
  decide (c.cfg.GetHeightFromTime t < c.rt.nextTurn - c.cfg.queryTTL)

/-- `Chain.VerifyAndPushResponsedQuery` (`chain.go` lines 569-581). -/
def Chain.VerifyAndPushResponsedQuery (c : Chain) (r : Response) (f : TxFail) :
    Option ChainErr × Chain :=
  if c.queryTimeIsExpired r.timestamp then (some .queryExpired, c)
  else if ¬ r.sigValid then (some .verifyFailed, c)
  else c.PushResponedQuery r f

/-- `Chain.VerifyAndPushAckedQuery` (`chain.go` lines 583-595): the expiry
check uses the wrapped response's timestamp. -/
def Chain.VerifyAndPushAckedQuery (c : Chain) (a : Ack) (f : TxFail) :
    Option ChainErr × Chain :=
  if c.queryTimeIsExpired a.response.timestamp then (some .queryExpired, c)
  else if ¬ a.sigValid then (some .verifyFailed, c)
  else c.PushAckedQuery a f

/-- `Chain.ProduceBlock` (`chain.go` lines 604-630). The external key fetch
and `PackAndSignBlock` are modelled by the oracle inputs `privOk`, `signOk`
and `newHash` (the self-hash the signer computes). Lines 614-616 assign
`ParentHash := state.Head`, `Timestamp := now`, `ParentHash := parent` to the
pending block in place — the net effect is `parentHash := parent`,
`timestamp := now`, applied before the signing step, so they stand even when
signing fails. -/
def Chain.ProduceBlock (c : Chain) (parent : Hash) (now : Int)
    (privOk signOk : Bool) (newHash : Hash) (f : TxFail) :
    Option ChainErr × Chain :=
  if ¬ privOk then (some .keyFetchFailure, c)
  else
    let pb1 := { c.rt.pendingBlock with parentHash := parent, timestamp := now }
    let c1 := { c with rt := { c.rt with pendingBlock := pb1 } }
    if ¬ signOk then (some .verifyFailed, c1)
    else
      let pb2 := { pb1 with blockHash := newHash, sigValid := true }
      let c2 := { c1 with rt := { c1.rt with pendingBlock := pb2 } }
      c2.PushBlock pb2 f

/-- `Chain.Stop` (`chain.go` lines 678-681). -/
def Chain.Stop (c : Chain) : Option ChainErr × Chain :=
  let p := c.rt.Stop
  (p.1, { c with rt := p.2 })

/-- `Chain.RunCurrentTurn` (`chain.go` lines 632-643): run the turn body
(skip when not my turn; on a `ProduceBlock` error call `Stop`), then — via
`defer`, on every path including a fault — `SetNextTurn`. -/
def Chain.RunCurrentTurn (c : Chain) (now : Int) (privOk signOk : Bool)
    (newHash : Hash) (f : TxFail) : Option ChainErr × Chain :=
  let body : Option ChainErr × Chain :=
    if ¬ c.isMyTurn then (none, c)
    else
      match c.ProduceBlock c.state.head now privOk signOk newHash f with
      | (none, c2) => (none, c2)
      | (some _, c2) => c2.Stop
  (body.1, { body.2 with rt := body.2.rt.SetNextTurn })

/-- Ancestor walk from the state's tip node (`c.state.node.ancestor(height)`
in `Chain.FetchBlock`; a nil tip yields no node). -/
def stateAncestor (c : Chain) (h : Int) : Option BlockNode :=
  match c.state.node with
  | none => none
  | some n => n.ancestor h

/-- `Chain.FetchBlock` (`chain.go` lines 683-696). When the ancestor walk
finds no node the source returns `(nil, nil)`. When a node is found, the
source reads the raw bytes by the node's index key and calls
`UnmarshalBinary` on the nil `*ct.Block` named return value — a nil-pointer
dereference before any field can be written, recorded as `nilDereference`. -/
def Chain.FetchBlock (c : Chain) (height : Int) :
    Option ChainErr × Option Block :=
  match stateAncestor c height with
  | none => (none, none)
  | some n =>
      let _raw := alookup c.store.blocks (nodeIndexKey n)
      (some .nilDereference, none)

/-- Modelled from the spec: `fetch_block(height)` with the decode target
allocated before decoding (§4.5 and design note §9.4, which states that
implementations MUST allocate before decode — the behaviour the source's
`FetchBlock` diverges from). -/
def Chain.FetchBlockSpec (c : Chain) (height : Int) :
    Option ChainErr × Option Block :=
  match stateAncestor c height with
  | none => (none, none)
  | some n =>
      match alookup c.store.blocks (nodeIndexKey n) with
      | some b => (none, some b)
      | none => (some .storeFailure, none)

/-! ## Load path (`LoadChain`, `chain.go` lines 244-379) -/

/-- The block iteration of `LoadChain` (`chain.go` lines 301-333), over the
`blocks` bucket in key order. The first block is verified as genesis; a block
whose `ParentHash` equals the hash of the previous block is verified and
chained to it; otherwise the source resolves the parent by
`chain.bi.LookupNode(&block.SignedHeader.BlockHash)` — the block's own hash,
looked up in an index that this loop never inserts into — and fails with
`ParentNotFound` when that lookup misses. Built nodes are only kept in the
local `nodes` array (`last`), never added to `bi`. -/
def loadBlocks (bi : BlockIndex) :
    List ((Nat × Nat) × Block) → Option BlockNode →
    Except ChainErr (Option BlockNode)
  | [], last => .ok last
  | (_, b) :: rest, last =>
    match last with
    | none =>
        if b.genesisValid then loadBlocks bi rest (some (newBlockNode b none))
        else .error .verifyFailed
    | some l =>
        if b.parentHash = l.hash then
          if b.sigValid then loadBlocks bi rest (some (newBlockNode b (some l)))
          else .error .verifyFailed
        else
          match bi.LookupNode b.blockHash with
          | none => .error .parentNotFound
          | some p => loadBlocks bi rest (some (newBlockNode b (some p)))

/-- The response re-insertion loop of `LoadChain` for one height bucket. -/
def loadResponses (qi : QueryIndex) (h : Int) :
    List (Hash × Response) → Except ChainErr QueryIndex
  | [] => .ok qi
  | (_, r) :: rest =>
    match qi.AddResponse h r with
    | .error e => .error e
    | .ok qi2 => loadResponses qi2 h rest

/-- The ack re-insertion loop of `LoadChain` for one height bucket. -/
def loadAcks (qi : QueryIndex) (h : Int) :
    List (Hash × Ack) → Except ChainErr QueryIndex
  | [] => .ok qi
  | (_, a) :: rest =>
    match qi.AddAck h a with
    | .error e => .error e
    | .ok qi2 => loadAcks qi2 h rest

/-- The height iteration of `LoadChain` (`chain.go` lines 337-373): for each
height key `k`, re-insert the stored responses, then the stored acks, at
height `KeyToHeight k`. -/
def loadHeights (qi : QueryIndex) :
    List (List Nat × HeightBuckets) → Except ChainErr QueryIndex
  | [] => .ok qi
  | (k, hb) :: rest =>
    let h := KeyToHeight k
    match loadResponses qi h hb.responses with
    | .error e => .error e
    | .ok qi2 =>
      match loadAcks qi2 h hb.acks with
      | .error e => .error e
      | .ok qi3 => loadHeights qi3 rest

/-- `LoadChain` (`chain.go` lines 244-379): open the store, build the fresh
chain value (empty indices, `NextTurn = 1`, zero-valued `State` — the
runtime's `ChainInitTime` is left at its zero value, unlike `NewChain`), read
and decode the `state` key (`Head` and `Height` only; the `node` pointer is
not serialized and stays nil), run the block iteration (whose nodes are
dropped: `bi` stays empty) and the height iteration. -/
def LoadChain (cfg : Config) (s : Store) : Except ChainErr Chain :=
  let pending : Block :=
    { version := 0x01000000, producer := cfg.serverID,
      genesisHash := cfg.genesis.blockHash,
      parentHash := cfg.genesis.blockHash,
      blockHash := 0, timestamp := 0, queries := [],
      sigValid := false, genesisValid := false }
  let c : Chain :=
    { cfg := cfg, store := s, bi := [], qi := [],
      rt := { offset := 0, period := cfg.period,
              timeResolution := cfg.timeResolution,
              chainInitTime := 0, nextTurn := 1,
              pendingBlock := pending, stopClosed := false },
      state := { node := none, head := 0, height := 0 },
      isMyTurn := false }
  match s.stateKey with
  | none => .error .storeFailure
  | some st =>
    match loadBlocks c.bi s.blocks none with
    | .error e => .error e
    | .ok _ =>
      match loadHeights c.qi s.heights with
      | .error e => .error e
      | .ok qi2 =>
        .ok { c with qi := qi2,
                     state := { node := none, head := st.1, height := st.2 } }

/-- Modelled from the spec: the load-path block iteration of §4.4 step 3 —
verify, resolve the parent of an out-of-order block by looking up its
`ParentHash` in the index built so far, build the node and insert it into the
index. This is the specified behaviour the source's `loadBlocks` diverges
from. -/
def loadBlocksSpec :
    List ((Nat × Nat) × Block) → Option BlockNode → BlockIndex →
    Except ChainErr (BlockIndex × Option BlockNode)
  | [], last, bi => .ok (bi, last)
  | (_, b) :: rest, last, bi =>
    match last with
    | none =>
        if b.genesisValid then
          let n := newBlockNode b none
          loadBlocksSpec rest (some n) (bi.AddBlock n)
        else .error .verifyFailed
    | some l =>
        if b.parentHash = l.hash then
          if b.sigValid then
            let n := newBlockNode b (some l)
            loadBlocksSpec rest (some n) (bi.AddBlock n)
          else .error .verifyFailed
        else
          match bi.LookupNode b.parentHash with
          | none => .error .parentNotFound
          | some p =>
            let n := newBlockNode b (some p)
            loadBlocksSpec rest (some n) (bi.AddBlock n)

/-! ## Concrete fixtures (spec §8 scenarios S1-S6) -/

/-- A fixed genesis block `G` with hash 100 and timestamp 0 (scenario S1). -/
def G : Block :=
  { version := 1, producer := 1, genesisHash := 100, parentHash := 0,
    blockHash := 100, timestamp := 0, queries := [],
    sigValid := true, genesisValid := true }

/-- Configuration with genesis `G`, period 10 and `QueryTTL = 1`. -/
def cfg0 : Config :=
  { genesis := G, period := 10, timeResolution := 1, queryTTL := 1,
    serverID := 1 }

/-- Block `B1` extending `G` at height 1 (timestamp `T0 + 1*Period`). -/
def B1 : Block :=
  { version := 1, producer := 1, genesisHash := 100, parentHash := 100,
    blockHash := 101, timestamp := 10, queries := [],
    sigValid := true, genesisValid := false }

/-- Block `B2` extending `B1` at height 2. -/
def B2 : Block :=
  { version := 1, producer := 1, genesisHash := 100, parentHash := 101,
    blockHash := 102, timestamp := 20, queries := [],
    sigValid := true, genesisValid := false }

/-- Block `B3` extending `B2` at height 3. -/
def B3 : Block :=
  { version := 1, producer := 1, genesisHash := 100, parentHash := 102,
    blockHash := 103, timestamp := 30, queries := [],
    sigValid := true, genesisValid := false }

/-- Placeholder chain value (used only to destructure `Except` results). -/
def emptyChain : Chain :=
  { cfg := cfg0, store := emptyStore, bi := [], qi := [],
    rt := { offset := 0, period := 10, timeResolution := 1,
            chainInitTime := 0, nextTurn := 1, pendingBlock := G,
            stopClosed := false },
    state := { node := none, head := 0, height := 0 },
    isMyTurn := false }

/-- The chain produced by `NewChain cfg0` (genesis pushed). -/
def c0 : Chain := (NewChain cfg0).toOption.getD emptyChain

/-- Push a block with a fully successful transaction. -/
def push1 (c : Chain) (b : Block) : Chain := (c.PushBlock b .ok).2

/-- Chain after pushing `B1` on `c0`. -/
def cB1 : Chain := push1 c0 B1

/-- Chain after pushing `B1`, `B2`, `B3` on `c0` (scenario S2). -/
def cB3 : Chain := push1 (push1 cB1 B2) B3

/-- The chain rebuilt by `LoadChain` from the store of `cB1`. -/
def cB1Loaded : Chain := (LoadChain cfg0 cB1.store).toOption.getD emptyChain

/-- A second height-1 child of `G` (a one-block fork), stored after `B1` in
key order. -/
def B2f : Block :=
  { version := 1, producer := 1, genesisHash := 100, parentHash := 100,
    blockHash := 102, timestamp := 15, queries := [],
    sigValid := true, genesisValid := false }

/-- A store holding `G` and the two height-1 children `B1` and `B2f` of `G`,
in block-key order. -/
def forkStore : Store :=
  { stateKey := some (102, 1),
    blocks := [((0, 100), G), ((1, 101), B1), ((1, 102), B2f)],
    heights := [] }

/-- A block whose parent hash matches no head (for the wrong-parent check). -/
def bBad : Block := { B1 with parentHash := 999 }

/-- `cB1` with `isMyTurn` set, as the test hook does. -/
def cT : Chain := { cB1 with isMyTurn := true }

/-- An expired response for `c0` (`NextTurn = 1`, `QueryTTL = 1`): its
timestamp maps to height -10 < 0. -/
def rExp : Response :=
  { request := { timestamp := -100, headerHash := 301 }, headerHash := 302,
    timestamp := -100, sigValid := true }

/-- An expired ack for `c0`: its wrapped response is `rExp`. -/
def aExp : Ack :=
  { response := rExp, headerHash := 303, timestamp := -95, sigValid := true }

/-- A response whose request timestamp maps to height 0 but whose own
timestamp maps to height 1 (for the ack-height attribution). -/
def r1 : Response :=
  { request := { timestamp := 5, headerHash := 201 }, headerHash := 202,
    timestamp := 15, sigValid := true }

/-- An ack wrapping `r1`. -/
def a1 : Ack :=
  { response := r1, headerHash := 203, timestamp := 16, sigValid := true }

/-! ## Claim theorems -/

/-- Decidable equality of `Except` results. -/
instance {ε α : Type} [DecidableEq ε] [DecidableEq α] :
    DecidableEq (Except ε α) := fun x y =>
  match x, y with
  | .ok a, .ok b =>
      if h : a = b then .isTrue (by rw [h]) else .isFalse (by simpa using h)
  | .error e, .error e2 =>
      if h : e = e2 then .isTrue (by rw [h]) else .isFalse (by simpa using h)
  | .ok _, .error _ => .isFalse (by simp)
  | .error _, .ok _ => .isFalse (by simp)

/-- C1, counterexample: pushing `B1` on `c0` in a transaction whose commit
fails returns a store error, yet the in-memory state and block index have
already been updated (inside the transaction body), while the store was
rolled back — refuting the claim that on a failed commit the in-memory state
is left unchanged and that in-memory updates happen only after a successful
commit. -/
theorem c1_commit_failure_mutates_memory :
    ((c0.PushBlock B1 .failCommit).1 = some ChainErr.storeFailure)
  ∧ (c0.PushBlock B1 .failCommit).2.state ≠ c0.state
  ∧ (c0.PushBlock B1 .failCommit).2.bi ≠ c0.bi
  ∧ (c0.PushBlock B1 .failCommit).2.store = c0.store := by decide

/-- C2: after producing a store with genesis `G` and block `B1`, `LoadChain`
succeeds and reproduces `Head` and `Height`, but the rebuilt block index is
empty (the loader never inserts the nodes it builds) and the state's tip
node is nil (the `State` codec does not carry it) — so the load round-trip
claimed for state, block index and tip node fails on the code. -/
theorem c2_load_chain_loses_index_and_tip :
    (LoadChain cfg0 cB1.store = .ok cB1Loaded)
  ∧ cB1Loaded.state.head = cB1.state.head
  ∧ cB1Loaded.state.height = cB1.state.height
  ∧ cB1Loaded.bi = []
  ∧ cB1.bi ≠ []
  ∧ BlockIndex.LookupNode cB1Loaded.bi B1.blockHash = none
  ∧ (BlockIndex.LookupNode cB1.bi B1.blockHash).isSome = true
  ∧ cB1Loaded.state.node = none
  ∧ cB1.state.node ≠ none := by decide

/-- C3: loading a store holding genesis `G` and its two height-1 children
`B1` and `B2f` fails with `ParentNotFound` at `B2f`, although `B2f`'s
`ParentHash` is the hash of the already-loaded `G` — the source resolves the
parent by looking up the block's own `BlockHash` in an index it never
populates (`chain.go` line 322), not the block's `ParentHash` as claimed;
the spec-modelled loader (lookup by `ParentHash` over the index built so
far) succeeds on the same store. -/
theorem c3_load_parent_lookup_uses_block_hash :
    (LoadChain cfg0 forkStore = .error .parentNotFound)
  ∧ B2f.parentHash = G.blockHash
  ∧ (loadBlocksSpec forkStore.blocks none []).toOption.isSome = true := by decide

/-- C8: after pushing `B1..B3` (scenario S2), height 2 lies on the best
chain and the ancestor walk finds the node of `B2`, but `FetchBlock 2`
faults: the source decodes into the nil `*ct.Block` named return value
(design note §9.4). The spec-modelled allocate-then-decode fetch returns the
stored `B2`, as the claim states. -/
theorem c8_fetch_block_nil_decode :
    cB3.state.height = 3
  ∧ (stateAncestor cB3 2).map BlockNode.hash = some 102
  ∧ cB3.FetchBlock 2 = (some .nilDereference, none)
  ∧ cB3.FetchBlockSpec 2 = (none, some B2) := by decide

/-- C4: a block whose parent hash differs from the current head is rejected
with `InvalidBlock` by the first check of `CheckAndPushNewBlock`, before any
store or memory mutation — the chain value is returned unchanged. -/
theorem c4_check_push_invalid_parent (c : Chain) (b : Block) (f : TxFail)
    (h : b.parentHash ≠ c.state.head) :
    c.CheckAndPushNewBlock b f = (some ChainErr.invalidBlock, c) := by
  unfold Chain.CheckAndPushNewBlock
  simp [h]

/-- C4, witness: pushing `bBad` (parent hash 999) on `c0` returns
`InvalidBlock` and leaves the chain unchanged. -/
theorem c4_check_push_invalid_parent_witness :
    c0.CheckAndPushNewBlock bBad .ok = (some ChainErr.invalidBlock, c0) :=
  c4_check_push_invalid_parent c0 bBad .ok (by decide)

/-- `AddResponse` either succeeds or fails with `MultipleResponses`. -/
theorem addResponse_cases (qi : QueryIndex) (h : Int) (r : Response) :
    (∃ qi2, qi.AddResponse h r = .ok qi2) ∨
      qi.AddResponse h r = .error ChainErr.multipleResponses := by
  unfold QueryIndex.AddResponse
  cases halk : alookup (hiAt qi h).responses r.headerHash with
  | none => simp [halk]
  | some rr =>
      by_cases hrr : rr.header = r <;> simp [halk, hrr]

/-- `AddAck` either succeeds or fails with `MultipleAcks`. -/
theorem addAck_cases (qi : QueryIndex) (h : Int) (a : Ack) :
    (∃ qi2, qi.AddAck h a = .ok qi2) ∨
      qi.AddAck h a = .error ChainErr.multipleAcks := by
  unfold QueryIndex.AddAck
  cases halk : alookup (hiAt qi h).responses a.response.headerHash with
  | none => simp [halk]
  | some rr =>
      cases hah : rr.ackHash with
      | none => simp [halk, hah]
      | some ah => by_cases heq : ah = a.headerHash <;> simp [halk, hah, heq]

/-- `PushResponedQuery` never reports `QueryExpired`. -/
theorem pushResp_err_ne_expired (c : Chain) (r : Response) (f : TxFail) :
    (c.PushResponedQuery r f).1 ≠ some ChainErr.queryExpired := by
  unfold Chain.PushResponedQuery
  cases f <;> simp <;>
    rcases addResponse_cases c.qi (c.cfg.GetHeightFromTime r.request.timestamp) r with
      ⟨qi2, hq⟩ | hq <;> simp [hq]

/-- `PushAckedQuery` never reports `QueryExpired`. -/
theorem pushAck_err_ne_expired (c : Chain) (a : Ack) (f : TxFail) :
    (c.PushAckedQuery a f).1 ≠ some ChainErr.queryExpired := by
  unfold Chain.PushAckedQuery
  cases f <;> simp <;>
    rcases addAck_cases c.qi (c.cfg.GetHeightFromTime a.response.timestamp) a with
      ⟨qi2, hq⟩ | hq <;> simp [hq]

/-- C5: `VerifyAndPushResponsedQuery` / `VerifyAndPushAckedQuery` return
`QueryExpired` — without reaching the non-verifying push, the chain is
returned unchanged — precisely for headers whose timestamp-derived height is
below `NextTurn − QueryTTL`, the ack using its wrapped response's
timestamp. -/
theorem c5_verify_push_expiry (c : Chain) (r : Response) (a : Ack) (f : TxFail) :
    ((c.cfg.GetHeightFromTime r.timestamp < c.rt.nextTurn - c.cfg.queryTTL →
        c.VerifyAndPushResponsedQuery r f = (some ChainErr.queryExpired, c))
   ∧ ((c.VerifyAndPushResponsedQuery r f).1 = some ChainErr.queryExpired →
        c.cfg.GetHeightFromTime r.timestamp < c.rt.nextTurn - c.cfg.queryTTL))
  ∧ ((c.cfg.GetHeightFromTime a.response.timestamp < c.rt.nextTurn - c.cfg.queryTTL →
        c.VerifyAndPushAckedQuery a f = (some ChainErr.queryExpired, c))
   ∧ ((c.VerifyAndPushAckedQuery a f).1 = some ChainErr.queryExpired →
        c.cfg.GetHeightFromTime a.response.timestamp < c.rt.nextTurn - c.cfg.queryTTL)) := by
  constructor
  · constructor
    · intro hlt
      unfold Chain.VerifyAndPushResponsedQuery Chain.queryTimeIsExpired
      simp [hlt]
    · intro heq
      by_contra hlt
      unfold Chain.VerifyAndPushResponsedQuery Chain.queryTimeIsExpired at heq
      simp [hlt] at heq
      by_cases hs : r.sigValid
      · simp [hs] at heq
        exact pushResp_err_ne_expired c r f heq
      · simp [hs] at heq
  · constructor
    · intro hlt
      unfold Chain.VerifyAndPushAckedQuery Chain.queryTimeIsExpired
      simp [hlt]
    · intro heq
      by_contra hlt
      unfold Chain.VerifyAndPushAckedQuery Chain.queryTimeIsExpired at heq
      simp [hlt] at heq
      by_cases hs : a.sigValid
      · simp [hs] at heq
        exact pushAck_err_ne_expired c a f heq
      · simp [hs] at heq

/-- C5, witness: with `NextTurn = 1` and `QueryTTL = 1` on `c0`, the expired
ack `aExp` (wrapped response at height -10) is rejected with `QueryExpired`
and the chain is unchanged. -/
theorem c5_verify_push_expiry_witness :
    c0.VerifyAndPushAckedQuery aExp .ok = (some ChainErr.queryExpired, c0) :=
  (c5_verify_push_expiry c0 rExp aExp .ok).2.1 (by decide)

/-- C6, counterexample: a producing turn rewrites the pending block (its
timestamp, parent hash, self-hash), and a failing turn closes the stop
signal — `RunCurrentTurn` does advance `NextTurn` by exactly 1, but it does
not leave every other `Runtime` field unchanged as claimed. -/
theorem c6_turn_changes_other_runtime_fields :
    ((cT.RunCurrentTurn 25 true true 555 .ok).2.rt.nextTurn = cT.rt.nextTurn + 1
      ∧ (cT.RunCurrentTurn 25 true true 555 .ok).2.rt.pendingBlock ≠ cT.rt.pendingBlock)
  ∧ ((cT.RunCurrentTurn 25 false true 555 .ok).2.rt.stopClosed = true
      ∧ cT.rt.stopClosed = false) := by decide

/-- C6, amended: for every runtime state and every outcome of the turn body,
`RunCurrentTurn` increases `NextTurn` by exactly 1 and leaves the clock
fields (`Offset`, `Period`, `TimeResolution`, `ChainInitTime`) unchanged;
the pending block may be rewritten on a producing turn and the stop signal
closed on a failing one. -/
theorem c6_amended_turn_progression (c : Chain) (now : Int)
    (privOk signOk : Bool) (nh : Hash) (f : TxFail) :
    (c.RunCurrentTurn now privOk signOk nh f).2.rt.nextTurn = c.rt.nextTurn + 1
  ∧ (c.RunCurrentTurn now privOk signOk nh f).2.rt.offset = c.rt.offset
  ∧ (c.RunCurrentTurn now privOk signOk nh f).2.rt.period = c.rt.period
  ∧ (c.RunCurrentTurn now privOk signOk nh f).2.rt.timeResolution = c.rt.timeResolution
  ∧ (c.RunCurrentTurn now privOk signOk nh f).2.rt.chainInitTime = c.rt.chainInitTime := by
  unfold Chain.RunCurrentTurn Chain.ProduceBlock Chain.Stop Runtime.Stop
    Runtime.SetNextTurn Chain.PushBlock
  cases c.isMyTurn <;> cases privOk <;> cases signOk <;> cases f <;>
    cases hsc : c.rt.stopClosed <;> simp [hsc]

/-! ## Query-push sequences and the ack/response invariant (C7) -/

/-- One query-push operation, with its transaction-failure injection. -/
inductive QOp where
  | presp (r : Response) (f : TxFail)
  | pshack (a : Ack) (f : TxFail)
deriving DecidableEq, Repr

/-- Apply one query-push operation, keeping the resulting chain. -/
def applyQOp (c : Chain) : QOp → Chain
  | .presp r f => (c.PushResponedQuery r f).2
  | .pshack a f => (c.PushAckedQuery a f).2

/-- Apply a sequence of query-push operations. -/
def applyQOps (c : Chain) : List QOp → Chain
  | [] => c
  | op :: rest => applyQOps (applyQOp c op) rest

/-- One ack-table entry is sound for a response table: a recorded ack header
references a response hash present in the table (placeholder entries are
vacuously sound). -/
def ackEntryOK (responses : List (Hash × ResponseRecord)) (e : Hash × AckRecord) :
    Bool :=
  match e.2.ack with
  | none => true
  | some a => (alookup responses a.response.headerHash).isSome

/-- Per-height soundness: every ack recorded at this height references a
response recorded at the same height. -/
def hiAckOK (hi : HeightIndex) : Bool :=
  hi.acks.all (ackEntryOK hi.responses)

/-- Index soundness: per-height soundness at every height. -/
def ackRespOK (qi : QueryIndex) : Bool :=
  qi.all fun p => hiAckOK p.2

/-! ### Association-list lemmas -/

/-- A successful lookup names a member of the list. -/
theorem alookup_mem {κ α : Type} [DecidableEq κ] (l : List (κ × α)) (k : κ)
    (v : α) (h : alookup l k = some v) : (k, v) ∈ l := by
  induction l with
  | nil => simp [alookup] at h
  | cons p rest ih =>
      by_cases hk : k = p.1
      · subst hk
        simp [alookup] at h
        subst h
        exact List.mem_cons_self _ _
      · simp [alookup, hk] at h
        exact List.mem_cons_of_mem _ (ih h)

/-- Lookup at the updated key. -/
theorem alookup_aset_self {κ α : Type} [DecidableEq κ] (l : List (κ × α))
    (k : κ) (v : α) : alookup (aset l k v) k = some v := by
  induction l with
  | nil => simp [aset, alookup]
  | cons p rest ih =>
      by_cases hk : k = p.1
      · simp [aset, hk, alookup]
      · simp [aset, hk, alookup, ih]

/-- Lookup at another key is unchanged by an update. -/
theorem alookup_aset_ne {κ α : Type} [DecidableEq κ] (l : List (κ × α))
    (k k2 : κ) (v : α) (h : k2 ≠ k) :
    alookup (aset l k v) k2 = alookup l k2 := by
  induction l with
  | nil => simp [aset, alookup, h]
  | cons p rest ih =>
      by_cases hk : k = p.1
      · subst hk
        simp [aset, alookup, h]
      · by_cases hk2 : k2 = p.1 <;> simp [aset, hk, alookup, hk2, ih]

/-- An update cannot lose a key that was present. -/
theorem isSome_alookup_aset {κ α : Type} [DecidableEq κ] (l : List (κ × α))
    (k k2 : κ) (v : α) (h : (alookup l k2).isSome = true) :
    (alookup (aset l k v) k2).isSome = true := by
  by_cases hk : k2 = k
  · subst hk
    simp [alookup_aset_self]
  · rw [alookup_aset_ne l k k2 v hk]
    exact h

/-- `aset` preserves an `all` predicate that the new pair satisfies. -/
theorem all_aset {κ α : Type} [DecidableEq κ] (p : κ × α → Bool)
    (l : List (κ × α)) (k : κ) (v : α) (hl : l.all p = true)
    (hv : p (k, v) = true) : (aset l k v).all p = true := by
  induction l with
  | nil => simp [aset, hv]
  | cons q rest ih =>
      simp only [List.all_cons, Bool.and_eq_true] at hl
      by_cases hk : k = q.1
      · subst hk
        simp [aset, hv, hl.2]
      · simp [aset, hk, hl.1, ih hl.2]

/-- The table at an updated height. -/
theorem hiAt_aset_self (qi : QueryIndex) (h : Int) (hi : HeightIndex) :
    hiAt (aset qi h hi) h = hi := by
  unfold hiAt
  rw [alookup_aset_self]
  rfl

/-- Growing the response table preserves one ack entry's soundness. -/
theorem ackEntryOK_aset (responses : List (Hash × ResponseRecord)) (k : Hash)
    (rr : ResponseRecord) (e : Hash × AckRecord)
    (h : ackEntryOK responses e = true) :
    ackEntryOK (aset responses k rr) e = true := by
  unfold ackEntryOK at *
  cases hax : e.2.ack with
  | none => simp [hax]
  | some a =>
      simp only [hax] at h ⊢
      exact isSome_alookup_aset _ _ _ _ h

/-- The per-height table a sound index holds at any height is sound. -/
theorem ackRespOK_hiAt (qi : QueryIndex) (h : Int) (hq : ackRespOK qi = true) :
    hiAckOK (hiAt qi h) = true := by
  unfold hiAt
  cases halk : alookup qi h with
  | none => rfl
  | some hi =>
      have hm := alookup_mem qi h hi halk
      unfold ackRespOK at hq
      simpa using List.all_eq_true.mp hq (h, hi) hm

/-- Updating one height with a sound table preserves index soundness. -/
theorem ackRespOK_aset (qi : QueryIndex) (h : Int) (hi : HeightIndex)
    (hq : ackRespOK qi = true) (hh : hiAckOK hi = true) :
    ackRespOK (aset qi h hi) = true := by
  unfold ackRespOK at *
  exact all_aset _ qi h hi hq hh

/-- A sound table stays sound when its response table grows. -/
theorem hiAckOK_grow (hi : HeightIndex) (k : Hash) (rr : ResponseRecord)
    (hh : hiAckOK hi = true) :
    (hi.acks.all (ackEntryOK (aset hi.responses k rr))) = true := by
  unfold hiAckOK at hh
  refine List.all_eq_true.mpr ?_
  intro e he2
  exact ackEntryOK_aset _ _ _ e (List.all_eq_true.mp hh e he2)

/-- `AddResponse` preserves index soundness. -/
theorem addResponse_preserves (qi : QueryIndex) (h : Int) (r : Response)
    (qi2 : QueryIndex) (hq : ackRespOK qi = true)
    (he : qi.AddResponse h r = .ok qi2) : ackRespOK qi2 = true := by
  have hhi := ackRespOK_hiAt qi h hq
  unfold QueryIndex.AddResponse at he
  cases halk : alookup (hiAt qi h).responses r.headerHash with
  | none =>
      simp only [halk, Except.ok.injEq] at he
      subst he
      refine ackRespOK_aset qi h _ hq ?_
      unfold hiAckOK
      exact hiAckOK_grow _ _ _ hhi
  | some rr =>
      simp only [halk] at he
      by_cases hrr : rr.header = r
      · simp only [hrr, if_true, Except.ok.injEq] at he
        subst he
        exact hq
      · simp [hrr] at he

/-- `AddAck` preserves index soundness. -/
theorem addAck_preserves (qi : QueryIndex) (h : Int) (a : Ack)
    (qi2 : QueryIndex) (hq : ackRespOK qi = true)
    (he : qi.AddAck h a = .ok qi2) : ackRespOK qi2 = true := by
  have hhi := ackRespOK_hiAt qi h hq
  unfold QueryIndex.AddAck at he
  cases halk : alookup (hiAt qi h).responses a.response.headerHash with
  | none =>
      simp only [halk, Except.ok.injEq] at he
      subst he
      refine ackRespOK_aset qi h _ hq ?_
      unfold hiAckOK
      refine all_aset _ _ _ _ (hiAckOK_grow _ _ _ hhi) ?_
      unfold ackEntryOK
      simp [alookup_aset_self]
  | some rr =>
      simp only [halk] at he
      cases hah : rr.ackHash with
      | some ah =>
          simp only [hah] at he
          by_cases heq2 : ah = a.headerHash
          · simp only [heq2, if_true, Except.ok.injEq] at he
            subst he
            refine ackRespOK_aset qi h _ hq ?_
            unfold hiAckOK
            refine all_aset _ _ _ _ ?_ ?_
            · exact hhi
            · unfold ackEntryOK
              simp [halk]
          · simp [heq2] at he
      | none =>
          simp only [hah, Except.ok.injEq] at he
          subst he
          refine ackRespOK_aset qi h _ hq ?_
          unfold hiAckOK
          refine all_aset _ _ _ _ (hiAckOK_grow _ _ _ hhi) ?_
          unfold ackEntryOK
          simp [alookup_aset_self]

/-- `pendAppend` does not touch the query index. -/
theorem pendAppend_qi (c : Chain) (a : Ack) : (pendAppend c a).qi = c.qi := by
  unfold pendAppend
  split <;> rfl

/-- `pendAppend` does not touch the store. -/
theorem pendAppend_store (c : Chain) (a : Ack) :
    (pendAppend c a).store = c.store := by
  unfold pendAppend
  split <;> rfl

/-- `PushResponedQuery` preserves index soundness on every failure path. -/
theorem pushResp_preserves (c : Chain) (r : Response) (f : TxFail)
    (hq : ackRespOK c.qi = true) :
    ackRespOK (c.PushResponedQuery r f).2.qi = true := by
  unfold Chain.PushResponedQuery
  cases f
  case failPut1 => exact hq
  case failPut2 => exact hq
  case failCommit =>
      cases hadd : c.qi.AddResponse (c.cfg.GetHeightFromTime r.request.timestamp) r with
      | error e => simp [hadd]; exact hq
      | ok qi2 =>
          simp [hadd]
          exact addResponse_preserves _ _ _ _ hq hadd
  case ok =>
      cases hadd : c.qi.AddResponse (c.cfg.GetHeightFromTime r.request.timestamp) r with
      | error e => simp [hadd]; exact hq
      | ok qi2 =>
          simp [hadd]
          exact addResponse_preserves _ _ _ _ hq hadd

/-- `PushAckedQuery` preserves index soundness on every failure path. -/
theorem pushAck_preserves (c : Chain) (a : Ack) (f : TxFail)
    (hq : ackRespOK c.qi = true) :
    ackRespOK (c.PushAckedQuery a f).2.qi = true := by
  unfold Chain.PushAckedQuery
  cases f
  case failPut1 => exact hq
  case failPut2 => exact hq
  case failCommit =>
      cases hadd : c.qi.AddAck (c.cfg.GetHeightFromTime a.response.timestamp) a with
      | error e => simp [hadd]; exact hq
      | ok qi2 =>
          simp [hadd, pendAppend_qi]
          exact addAck_preserves _ _ _ _ hq hadd
  case ok =>
      cases hadd : c.qi.AddAck (c.cfg.GetHeightFromTime a.response.timestamp) a with
      | error e => simp [hadd]; exact hq
      | ok qi2 =>
          simp [hadd, pendAppend_qi]
          exact addAck_preserves _ _ _ _ hq hadd

/-- After a successful `AddAck`, the referenced response is present at the
same height. -/
theorem addAck_resp_present (qi : QueryIndex) (h : Int) (a : Ack)
    (qi2 : QueryIndex) (he : qi.AddAck h a = .ok qi2) :
    (alookup (hiAt qi2 h).responses a.response.headerHash).isSome = true := by
  unfold QueryIndex.AddAck at he
  cases halk : alookup (hiAt qi h).responses a.response.headerHash with
  | none =>
      simp only [halk, Except.ok.injEq] at he
      subst he
      rw [hiAt_aset_self]
      simp [alookup_aset_self]
  | some rr =>
      simp only [halk] at he
      cases hah : rr.ackHash with
      | some ah =>
          simp only [hah] at he
          by_cases heq2 : ah = a.headerHash
          · simp only [heq2, if_true, Except.ok.injEq] at he
            subst he
            rw [hiAt_aset_self]
            simp [halk]
          · simp [heq2] at he
      | none =>
          simp only [hah, Except.ok.injEq] at he
          subst he
          rw [hiAt_aset_self]
          simp [alookup_aset_self]

/-- C1, amended: a failure of a store write inside the transaction body
leaves the chain — store and memory — unchanged; the in-memory updates are
applied inside the transaction body once the store writes succeed, before
the commit, so a commit failure leaves the in-memory state, block index and
query index exactly as a successful push would while the store is rolled
back. -/
theorem c1_amended_memory_update_discipline (c : Chain) (b : Block)
    (r : Response) (a : Ack) :
    (c.PushBlock b .failPut1 = (some ChainErr.storeFailure, c))
  ∧ (c.PushBlock b .failPut2 = (some ChainErr.storeFailure, c))
  ∧ (c.PushBlock b .failCommit).2.state = (c.PushBlock b .ok).2.state
  ∧ (c.PushBlock b .failCommit).2.bi = (c.PushBlock b .ok).2.bi
  ∧ (c.PushBlock b .failCommit).2.qi = (c.PushBlock b .ok).2.qi
  ∧ (c.PushBlock b .failCommit).2.store = c.store
  ∧ (c.PushResponedQuery r .failPut1 = (some ChainErr.storeFailure, c))
  ∧ (c.PushResponedQuery r .failPut2 = (some ChainErr.storeFailure, c))
  ∧ (c.PushResponedQuery r .failCommit).2.qi = (c.PushResponedQuery r .ok).2.qi
  ∧ (c.PushResponedQuery r .failCommit).2.store = c.store
  ∧ (c.PushAckedQuery a .failPut1 = (some ChainErr.storeFailure, c))
  ∧ (c.PushAckedQuery a .failPut2 = (some ChainErr.storeFailure, c))
  ∧ (c.PushAckedQuery a .failCommit).2.qi = (c.PushAckedQuery a .ok).2.qi
  ∧ (c.PushAckedQuery a .failCommit).2.rt = (c.PushAckedQuery a .ok).2.rt
  ∧ (c.PushAckedQuery a .failCommit).2.store = c.store := by
  refine ⟨rfl, rfl, rfl, rfl, rfl, rfl, rfl, rfl, ?_, ?_, rfl, rfl, ?_, ?_, ?_⟩ <;>
    first
    | (cases hadd : c.qi.AddResponse (c.cfg.GetHeightFromTime r.request.timestamp) r <;>
        simp [Chain.PushResponedQuery, hadd])
    | (cases hadd : c.qi.AddAck (c.cfg.GetHeightFromTime a.response.timestamp) a <;>
        simp [Chain.PushAckedQuery, hadd, pendAppend_qi, pendAppend_store])

/-- C7, counterexample: pushing the ack `a1` (whose wrapped response `r1`
has request timestamp 5 — height 0 — but own timestamp 15 — height 1)
records the ack and its response at height 1, the height derived from the
response's own timestamp, not at the claimed height 0 derived from the
response's request timestamp, where nothing is recorded. -/
theorem c7_ack_height_from_response_timestamp :
    ((c0.PushAckedQuery a1 .ok).2.qi.GetAck 1 203).toOption.isSome = true
  ∧ cfg0.GetHeightFromTime a1.response.request.timestamp = 0
  ∧ cfg0.GetHeightFromTime a1.response.timestamp = 1
  ∧ ((c0.PushAckedQuery a1 .ok).2.qi.GetAck 0 203).toOption.isSome = false
  ∧ alookup (hiAt (c0.PushAckedQuery a1 .ok).2.qi 0).responses 202 = none := by
  decide

/-- C7, amended: after any sequence of `PushResponedQuery` /
`PushAckedQuery` calls (under any transaction outcome), every ack recorded
in the query index references a response recorded at the same height, where
that height is the one derived from the wrapped response's own timestamp;
a response not previously seen is inserted at ack arrival (second
conjunct: after a successful ack push, the referenced response is present at
the ack's height). -/
theorem c7_amended_ack_response_invariant :
    (∀ (c : Chain) (ops : List QOp), ackRespOK c.qi = true →
        ackRespOK (applyQOps c ops).qi = true)
  ∧ (∀ (c : Chain) (a : Ack) (f : TxFail), (c.PushAckedQuery a f).1 = none →
        (alookup (hiAt (c.PushAckedQuery a f).2.qi
            (c.cfg.GetHeightFromTime a.response.timestamp)).responses
          a.response.headerHash).isSome = true) := by
  constructor
  · intro c ops
    induction ops generalizing c with
    | nil => exact fun h => h
    | cons op rest ih =>
        intro h
        unfold applyQOps
        refine ih (applyQOp c op) ?_
        cases op with
        | presp r f => exact pushResp_preserves c r f h
        | pshack a f => exact pushAck_preserves c a f h
  · intro c a f hnone
    unfold Chain.PushAckedQuery at hnone ⊢
    cases f
    case failPut1 => simp at hnone
    case failPut2 => simp at hnone
    case failCommit =>
        cases hadd : c.qi.AddAck (c.cfg.GetHeightFromTime a.response.timestamp) a with
        | error e => simp [hadd] at hnone
        | ok qi2 => simp [hadd] at hnone
    case ok =>
        cases hadd : c.qi.AddAck (c.cfg.GetHeightFromTime a.response.timestamp) a with
        | error e => simp [hadd] at hnone
        | ok qi2 =>
            simp [hadd, pendAppend_qi]
            exact addAck_resp_present _ _ _ _ hadd

/-- C7, witness: the preserved invariant instantiated on `c0` (whose index
is sound) and the concrete sequence pushing `r1` then `a1`. -/
theorem c7_amended_ack_response_invariant_witness :
    ackRespOK (applyQOps c0 [QOp.presp r1 .ok, QOp.pshack a1 .ok]).qi = true :=
  c7_amended_ack_response_invariant.1 c0 [QOp.presp r1 .ok, QOp.pshack a1 .ok]
    (by decide)

/-- C9: the first `Stop` signals the stop channel, but a second `Stop`
executes `close(stopCh)` on an already-closed channel, which faults
(`closeOfClosed`) instead of being the claimed safe no-op — the `stop`
operation of the code is not idempotent. -/
theorem c9_stop_twice_faults :
    (c0.Stop.1 = none)
  ∧ (c0.Stop.2.rt.stopClosed = true)
  ∧ (c0.Stop.2.Stop.1 = some ChainErr.closeOfClosed)
  ∧ c0.Stop.2.Stop.2 = c0.Stop.2 := by decide

/-- C10: for every `int32` height `h` — negative heights included —
`KeyToHeight (HeightToKey h) = h`, `HeightToKey h` is exactly 4 bytes, and
conversely `HeightToKey (KeyToHeight k) = k` for every 4-byte key, so the
encoding is a bijection between `int32` heights and 4-byte big-endian
keys. -/
theorem c10_height_key_roundtrip (h : Int) (k : List Nat)
    (hlo : -2147483648 ≤ h) (hhi : h < 2147483648)
    (hk : k.length = 4) (hbytes : ∀ b ∈ k, b < 256) :
    KeyToHeight (HeightToKey h) = h
  ∧ (HeightToKey h).length = 4
  ∧ (∀ b ∈ HeightToKey h, b < 256)
  ∧ HeightToKey (KeyToHeight k) = k := by
  refine ⟨?_, ?_, ?_, ?_⟩
  · have hm1 : 0 ≤ h % 4294967296 := Int.emod_nonneg h (by norm_num)
    have hm2 : h % 4294967296 < 4294967296 := Int.emod_lt_of_pos h (by norm_num)
    simp only [HeightToKey, KeyToHeight, beUint32]
    split_ifs <;> omega
  · simp [HeightToKey]
  · intro b hb
    simp only [HeightToKey, List.mem_cons, List.not_mem_nil, or_false] at hb
    rcases hb with rfl | rfl | rfl | rfl <;> omega
  · rcases k with _ | ⟨b0, k⟩
    · simp only [List.length_nil] at hk; omega
    rcases k with _ | ⟨b1, k⟩
    · simp only [List.length_cons, List.length_nil] at hk; omega
    rcases k with _ | ⟨b2, k⟩
    · simp only [List.length_cons, List.length_nil] at hk; omega
    rcases k with _ | ⟨b3, k⟩
    · simp only [List.length_cons, List.length_nil] at hk; omega
    rcases k with _ | ⟨b4, k⟩
    swap
    · simp only [List.length_cons] at hk; omega
    have h0 : b0 < 256 := hbytes b0 (by simp)
    have h1 : b1 < 256 := hbytes b1 (by simp)
    have h2 : b2 < 256 := hbytes b2 (by simp)
    have h3 : b3 < 256 := hbytes b3 (by simp)
    simp only [KeyToHeight, HeightToKey, beUint32]
    split_ifs <;> simp only [List.cons.injEq, and_true] <;>
      refine ⟨?_, ?_, ?_, ?_⟩ <;> omega

/-- C10, witness: the round-trip at the negative height `-1` and at the
concrete 4-byte key `[0, 0, 1, 44]` (height 300). -/
theorem c10_height_key_roundtrip_witness :
    KeyToHeight (HeightToKey (-1)) = -1
  ∧ HeightToKey (KeyToHeight [0, 0, 1, 44]) = [0, 0, 1, 44] := by
  have hr := c10_height_key_roundtrip (-1) [0, 0, 1, 44]
    (by decide) (by decide) (by decide) (by decide)
  exact ⟨hr.1, hr.2.2.2⟩

end SQLChain
